import Mathlib

/-!
Shallow embedding of the `notifyOwner` Firebase callable function of the
Avahanaa-Web repository (source: `functions/index.js`, current revision with
dual-scope rate limiting).  Pure data transformations are translated to Lean
functions; the Firestore / FCM effects are modelled by an explicit environment
(`Env`) supplying the contents of the documents read and the outcomes of the
external calls, and an effect trace (`Effects`) recording the writes and sends
the handler performs.
-/

namespace Avahanaa

/-! ## JavaScript value and object helpers -/

/-- A flat JavaScript value as it can appear in the caller-supplied `metadata`
map.  `num` is restricted to integers, for which JS `String(value)` agrees
with `Int` printing. -/
inductive JsValue where
  | str (s : String)
  | num (n : Int)
  | boolean (b : Bool)
  | nullV
  | undefV
  deriving DecidableEq

/-- JS `String(value)` conversion for the values of `JsValue`. -/
def jsValueToString : JsValue → String
  | JsValue.str s => s
  | JsValue.num n => toString n
  | JsValue.boolean true => "true"
  | JsValue.boolean false => "false"
  | JsValue.nullV => "null"
  | JsValue.undefV => "undefined"

/-- Reading `o[k]` on a JS object modelled as an insertion-ordered
association list: the value at the first (hence, for distinct keys, the only)
entry with key `k`. -/
def objGet {α : Type} : List (String × α) → String → Option α
  | [], _ => none
  | p :: l, k => if p.1 == k then some p.2 else objGet l k

/-- `objGet` defaulted to the empty string, mirroring a falsy absent field. -/
def objGetD (o : List (String × String)) (k : String) : String :=
  (objGet o k).getD ""

/-- Writing `o[k] = v` on a JS object: replaces the value in place if the key
exists (JS objects keep the original insertion position), else appends. -/
def objSet {α : Type} (o : List (String × α)) (k : String) (v : α) :
    List (String × α) :=
  if o.any (fun p => p.1 == k) then
    o.map (fun p => if p.1 == k then (k, v) else p)
  else
    o ++ [(k, v)]

/-- The keys of an association list are pairwise distinct (true of every list
produced by `Object.entries` on a JS object). -/
def nodupKeys {α : Type} (o : List (String × α)) : Prop :=
  (o.map Prod.fst).Nodup

/-- JS `String.prototype.trim()`: strip leading and trailing whitespace.
Implemented structurally over the underlying character list so that concrete
inputs evaluate inside the kernel. -/
def jsTrim (s : String) : String :=
  ⟨((s.data.dropWhile Char.isWhitespace).reverse.dropWhile Char.isWhitespace).reverse⟩

/-- JS `a || b` restricted to strings: the empty string is the only falsy
string. -/
def jsOr (a b : String) : String :=
  if a.isEmpty then b else a

/-- First truthy (that is, non-empty) string of a candidate list, or `""`.
This is what a chain `a || b || c || d` of JS string candidates evaluates
to. -/
def firstTruthy : List String → String
  | [] => ""
  | a :: rest => if a.isEmpty then firstTruthy rest else a

/-! ## Error model: `functions.https.HttpsError` -/

/-- The error codes used by `notifyOwner`. -/
inductive ErrKind where
  | invalidArgument
  | notFound
  | failedPrecondition
  | resourceExhausted
  | internal
  deriving DecidableEq

/-- A thrown `HttpsError`: code, message, and the `details` fields attached by
the rate limiter (`retryAfterSeconds`, `scope`). -/
structure HttpsError where
  kind : ErrKind
  message : String
  retryAfterSeconds : Option Int := none
  scope : Option String := none
  deriving DecidableEq

/-! ## Rate limiter (`RATE_LIMIT_CONFIG`, `enforceRateLimits`) -/

/-- JS `Math.ceil(a / b)` on integers, for a positive divisor `b`. -/
def ceilDiv (a b : Int) : Int :=
  -(Int.ediv (-a) b)

/-- One entry of `RATE_LIMIT_CONFIG`. -/
structure RateLimitConfig where
  windowMs : Int
  max : Nat
  message : String
  scope : String
  deriving DecidableEq

namespace RATE_LIMIT_CONFIG

/-- `RATE_LIMIT_CONFIG.perOrigin` from the source. -/
def perOrigin : RateLimitConfig :=
  { windowMs := 60 * 1000
    max := 3
    message := "Too many alerts were sent from this browser in a short time. Please wait a minute and try again."
    scope := "origin" }

/-- `RATE_LIMIT_CONFIG.perQr` from the source. -/
def perQr : RateLimitConfig :=
  { windowMs := 60 * 1000
    max := 8
    message := "This vehicle is receiving many alerts right now. Please wait a minute before trying again."
    scope := "qr" }

end RATE_LIMIT_CONFIG

/-- A document of the `notificationRateLimits` collection, as written by
`enforceRateLimits` (fields `count`, `windowStart`, `updatedAt`, `scope`;
timestamps as milliseconds). -/
structure RateLimitDoc where
  count : Nat
  windowStart : Int
  updatedAt : Int
  scope : String
  deriving DecidableEq

/-- The per-scope body of the transaction in `enforceRateLimits`
(lines 106-141): read the snapshot, compute `elapsedMs` and `nextCount`,
either throw `resource-exhausted` or stage the merged write. -/
def checkScope (config : RateLimitConfig) (snap : Option RateLimitDoc)
    (nowMs : Int) : Except HttpsError RateLimitDoc :=
  let windowStartMs : Int :=
    match snap with
    | some d => d.windowStart
    | none => nowMs
  let elapsedMs : Int := nowMs - windowStartMs
  let count : Nat :=
    match snap with
    | some d => d.count
    | none => 0
  let nextCount : Nat := if elapsedMs > config.windowMs then 1 else count + 1
  if nextCount > config.max then
    Except.error
      { kind := ErrKind.resourceExhausted
        message := config.message
        retryAfterSeconds := some (max 5 (ceilDiv (config.windowMs - elapsedMs) 1000))
        scope := some config.scope }
  else
    Except.ok
      { count := nextCount
        windowStart := if elapsedMs > config.windowMs then nowMs else windowStartMs
        updatedAt := nowMs
        scope := config.scope }

/-- The elapsed time `checkScope` computes for a snapshot: `now` minus the
stored `windowStart`, or `0` when no document exists yet. -/
def elapsedOf (snap : Option RateLimitDoc) (nowMs : Int) : Int :=
  nowMs - (match snap with
           | some d => d.windowStart
           | none => nowMs)

/-- The rate-limit documents for one code id: the per-origin documents
`qr:<id>:origin:<fingerprint>` keyed by requester fingerprint, and the single
per-code document `qr:<id>:global`. -/
structure RateLimitState where
  originDocs : List (String × RateLimitDoc)
  qrDoc : Option RateLimitDoc
  deriving DecidableEq

/-- `enforceRateLimits` (lines 85-147) for a fixed non-empty code id: one
Firestore transaction that reads both scope documents, checks per-origin then
per-code, and either commits both staged writes or throws, in which case the
transaction rolls back and neither document changes. -/
def enforceRateLimits (st : RateLimitState) (requesterFingerprint : String)
    (nowMs : Int) : RateLimitState × Option HttpsError :=
  match checkScope RATE_LIMIT_CONFIG.perOrigin (objGet st.originDocs requesterFingerprint) nowMs with
  | Except.error e => (st, some e)
  | Except.ok d1 =>
    match checkScope RATE_LIMIT_CONFIG.perQr st.qrDoc nowMs with
    | Except.error e => (st, some e)
    | Except.ok d2 =>
      ({ originDocs := objSet st.originDocs requesterFingerprint d1
         qrDoc := some d2 }, none)

/-- Run a sequence of attempts (given by their timestamps) against a single
scope's counter: `none` when some attempt was rejected, otherwise the final
counter state. -/
def runScopeAttempts (config : RateLimitConfig) :
    Option RateLimitDoc → List Int → Option (Option RateLimitDoc)
  | snap, [] => some snap
  | snap, t :: ts =>
    match checkScope config snap t with
    | Except.ok d => runScopeAttempts config (some d) ts
    | Except.error _ => none

/-! ## The `notifyOwner` request pipeline -/

/-- The (destructured) callable payload: `qrId`, `userId`, `fcmToken`,
`vehicleId`, `title`, `body` default to `""`, `metadata` to the empty map
(lines 167-175). -/
structure NotifyInput where
  qrId : String := ""
  userId : String := ""
  fcmToken : String := ""
  vehicleId : String := ""
  title : String := ""
  body : String := ""
  metadata : List (String × JsValue) := []
  deriving DecidableEq

/-- The fields of a `qrCodes/<qrId>` document that `notifyOwner` reads.
String fields default to `""` (a falsy absent field); `isActiveFalse` is the
JS test `qrData.isActive === false`; `metaUserId` and `metaVehicleId` are
`qrData.metadata.userId` / `.vehicleId`. -/
structure QrDocData where
  userId : String := ""
  vehicleId : String := ""
  metaUserId : String := ""
  metaVehicleId : String := ""
  fcmToken : String := ""
  isActiveFalse : Bool := false
  deriving DecidableEq

/-- The fields of a `users/<uid>` document that `notifyOwner` reads.
`notificationsDisabled` is the JS test `userData.notificationsEnabled ===
false`. -/
structure UserDocData where
  fcmToken : String := ""
  notificationsDisabled : Bool := false
  deriving DecidableEq

/-- Outcome of the vehicle sub-document lookup: document absent, document
present (with `inactiveOrMuted` the JS test `vehicleData.isActive === false ||
vehicleData.notificationsEnabled === false`), or the read itself failed (the
code logs a warning and continues). -/
inductive VehicleLookup where
  | missing
  | found (inactiveOrMuted : Bool)
  | lookupFailed
  deriving DecidableEq

/-- Outcome of `messaging.send`: accepted, the permanent
`messaging/registration-token-not-registered` failure, or another failure
with the given `error.message`. -/
inductive SendOutcome where
  | success
  | tokenNotRegistered
  | failed (msg : String)
  deriving DecidableEq

/-- The external world one invocation of `notifyOwner` observes: the
documents read, the prior rate-limit documents, the requester fingerprint and
clock, and the outcomes of the push send, of the best-effort token-clear
write, and of the audit-log `add`. -/
structure Env where
  qrDoc : Option QrDocData := none
  users : List (String × UserDocData) := []
  vehicleDoc : VehicleLookup := VehicleLookup.missing
  rlState : RateLimitState := { originDocs := [], qrDoc := none }
  fingerprint : String := "anonymous"
  nowMs : Int := 0
  sendOutcome : SendOutcome := SendOutcome.success
  clearTokenWriteFails : Bool := false
  auditAddFails : Option String := none
  deriving DecidableEq

/-- The message handed to `messaging.send` (the parts the claims are about:
token, notification title/body, and the flat `data` payload). -/
structure PushMessage where
  token : String
  title : String
  body : String
  data : List (String × String)
  deriving DecidableEq

/-- A document appended to the `notifications` collection (lines 365-375);
`sentAt` is a server timestamp and is omitted from the model. -/
structure NotificationRecord where
  qrCodeId : String
  userId : String
  vehicleId : String
  reason : String
  message : String
  status : String
  read : Bool
  deriving DecidableEq

/-- The best-effort cleanup write of lines 396-402: a merge-set on
`users/<userId>` deleting `fcmToken` and stamping `fcmTokenUpdatedAt`;
`succeeded` records whether the write itself went through. -/
structure TokenClearWrite where
  userId : String
  deletesFcmToken : Bool
  setsFcmTokenUpdatedAt : Bool
  succeeded : Bool
  deriving DecidableEq

/-- The effect trace of one invocation: final rate-limit documents, send
attempts, token-clear writes, audit-log appends, and the owner id resolved
(when resolution completed). -/
structure Effects where
  rlState : RateLimitState
  sendAttempts : List PushMessage
  tokenClearWrites : List TokenClearWrite
  auditRecords : List NotificationRecord
  resolvedOwner : Option String := none
  deriving DecidableEq

/-- The success response `{ok: true, userId, vehicleId}`. -/
structure OkResp where
  userId : String
  vehicleId : String
  deriving DecidableEq

/-- The validation step of lines 177-192: the names of the required fields
that are missing, in source order. -/
def missingFields (inp : NotifyInput) : List String :=
  (if inp.qrId.isEmpty then ["qrId"] else [])
    ++ (if inp.title.isEmpty then ["title"] else [])
    ++ (if inp.body.isEmpty then ["body"] else [])

/-- Lines 177-192: `notifyOwner` throws `invalid-argument` naming the missing
fields when `qrId`, `title` or `body` is falsy. -/
def validate (inp : NotifyInput) : Option HttpsError :=
  if inp.qrId.isEmpty || inp.title.isEmpty || inp.body.isEmpty then
    some
      { kind := ErrKind.invalidArgument
        message := "Missing required fields: " ++ String.intercalate ", " (missingFields inp) }
  else
    none

/-- The per-entry decision of the metadata cleaning loop (lines 196-201):
skip `null`/`undefined` values, `String(value).trim()` the rest, and keep the
entry (`some`) exactly when the result is non-empty. -/
def cleanEntry (kv : String × JsValue) : Option (String × String) :=
  match kv.2 with
  | JsValue.nullV => none
  | JsValue.undefV => none
  | v =>
    let strValue := jsTrim (jsValueToString v)
    if strValue.isEmpty then none else some (kv.1, strValue)

/-- The metadata cleaning loop of lines 194-203: `Object.entries(metadata)`
traversed in order, each kept entry assigned into the (initially empty)
`cleanedMetadata` object. -/
def cleanMetadata (entries : List (String × JsValue)) : List (String × String) :=
  entries.foldl
    (fun acc kv =>
      match cleanEntry kv with
      | none => acc
      | some p => objSet acc p.1 p.2)
    []

/-- Lines 313-316: the cleaned metadata is overwritten with the resolved
owner id, and with the resolved vehicle id when that is non-empty. -/
def buildCleanedMeta (cleaned : List (String × String))
    (resolvedUserId resolvedVehicleId : String) : List (String × String) :=
  let cm1 := objSet cleaned "userId" resolvedUserId
  if resolvedVehicleId.isEmpty then cm1 else objSet cm1 "vehicleId" resolvedVehicleId

/-- Lines 318-327: the push `data` payload. Built-in fields first (`qrId`,
`userId`, conditionally `vehicleId`, `source`), then the cleaned-metadata
entries are spread over them, overwriting on key collision. -/
def buildDataPayload (qrId resolvedUserId resolvedVehicleId : String)
    (cleanedMeta : List (String × String)) : List (String × String) :=
  let base := objSet (objSet ([] : List (String × String)) "qrId" qrId) "userId" resolvedUserId
  let base2 := if resolvedVehicleId.isEmpty then base else objSet base "vehicleId" resolvedVehicleId
  let base3 := objSet base2 "source" "avahanaa-web"
  cleanedMeta.foldl (fun acc kv => objSet acc kv.1 kv.2) base3

/-- Everything the successful pre-send phase (lines 194-329) produces: the
mutated cleaned metadata, the three resolved ids, the data payload, and the
committed rate-limit documents. -/
structure Resolved where
  cleanedMetadata : List (String × String)
  resolvedUserId : String
  resolvedVehicleId : String
  resolvedFcmToken : String
  dataPayload : List (String × String)
  rlState : RateLimitState
  deriving DecidableEq

/-- Lines 194-329 of `notifyOwner`: metadata cleaning, QR-code lookup and
activity check, owner/vehicle resolution (JS `||` chains, then `.trim()`),
owner lookup and preference checks, best-effort vehicle restriction check,
token resolution, metadata overwrite, payload construction, and the
rate-limit transaction. -/
def preSend (inp : NotifyInput) (env : Env) : Except HttpsError Resolved :=
  let cleanedMetadata := cleanMetadata inp.metadata
  match env.qrDoc with
  | none =>
    Except.error
      { kind := ErrKind.notFound
        message := "This QR code is not linked to any owner profile yet." }
  | some qrData =>
    if qrData.isActiveFalse then
      Except.error
        { kind := ErrKind.failedPrecondition
          message := "This QR code is currently inactive." }
    else
      let resolvedUserId :=
        jsTrim (jsOr qrData.userId (jsOr qrData.metaUserId
          (jsOr (objGetD cleanedMetadata "userId") inp.userId)))
      let resolvedVehicleId :=
        jsTrim (jsOr qrData.vehicleId (jsOr qrData.metaVehicleId
          (jsOr (objGetD cleanedMetadata "vehicleId") inp.vehicleId)))
      if resolvedUserId.isEmpty then
        Except.error
          { kind := ErrKind.failedPrecondition
            message := "Could not resolve owner account for this QR code." }
      else
        match objGet env.users resolvedUserId with
        | none =>
          Except.error
            { kind := ErrKind.notFound
              message := "Owner profile for this QR code was not found." }
        | some userData =>
          if userData.notificationsDisabled then
            Except.error
              { kind := ErrKind.failedPrecondition
                message := "The owner has disabled notifications." }
          else
            let vehicleBlocked :=
              if resolvedVehicleId.isEmpty then false
              else
                match env.vehicleDoc with
                | VehicleLookup.missing => false
                | VehicleLookup.lookupFailed => false
                | VehicleLookup.found inactiveOrMuted => inactiveOrMuted
            if vehicleBlocked then
              Except.error
                { kind := ErrKind.failedPrecondition
                  message := "Notifications for this vehicle are currently disabled." }
            else
              let resolvedFcmToken :=
                jsTrim (jsOr userData.fcmToken (jsOr qrData.fcmToken inp.fcmToken))
              if resolvedFcmToken.isEmpty then
                Except.error
                  { kind := ErrKind.failedPrecondition
                    message := "The owner has not enabled push notifications yet." }
              else
                let cleanedMeta2 := buildCleanedMeta cleanedMetadata resolvedUserId resolvedVehicleId
                let dataPayload := buildDataPayload inp.qrId resolvedUserId resolvedVehicleId cleanedMeta2
                match enforceRateLimits env.rlState env.fingerprint env.nowMs with
                | (_, some e) => Except.error e
                | (st', none) =>
                  Except.ok
                    { cleanedMetadata := cleanedMeta2
                      resolvedUserId := resolvedUserId
                      resolvedVehicleId := resolvedVehicleId
                      resolvedFcmToken := resolvedFcmToken
                      dataPayload := dataPayload
                      rlState := st' }

/-- The empty effect trace: no writes, no sends, rate-limit documents as
found. -/
def noEffects (env : Env) : Effects :=
  { rlState := env.rlState
    sendAttempts := []
    tokenClearWrites := []
    auditRecords := []
    resolvedOwner := none }

/-- The full `notifyOwner` handler (lines 149-426): validation, the pre-send
phase, `messaging.send`, and the catch block (permanent-invalid-token cleanup
plus `failed-precondition`, `HttpsError` rethrow, `internal` fallback), then
the audit append and the success response. -/
def notifyOwner (inp : NotifyInput) (env : Env) :
    Effects × Except HttpsError OkResp :=
  match validate inp with
  | some e => (noEffects env, Except.error e)
  | none =>
    match preSend inp env with
    | Except.error e => (noEffects env, Except.error e)
    | Except.ok res =>
      let msg : PushMessage :=
        { token := res.resolvedFcmToken
          title := inp.title
          body := inp.body
          data := res.dataPayload }
      let sentEffects : Effects :=
        { rlState := res.rlState
          sendAttempts := [msg]
          tokenClearWrites := []
          auditRecords := []
          resolvedOwner := some res.resolvedUserId }
      match env.sendOutcome with
      | SendOutcome.tokenNotRegistered =>
        ({ sentEffects with
            tokenClearWrites :=
              [{ userId := res.resolvedUserId
                 deletesFcmToken := true
                 setsFcmTokenUpdatedAt := true
                 succeeded := !env.clearTokenWriteFails }] },
         Except.error
           { kind := ErrKind.failedPrecondition
             message := "The notification token for this user is no longer valid. Ask them to open the app to refresh it." })
      | SendOutcome.failed m =>
        (sentEffects,
         Except.error
           { kind := ErrKind.internal
             message := jsOr m "Failed to deliver notification." })
      | SendOutcome.success =>
        match env.auditAddFails with
        | some m =>
          (sentEffects,
           Except.error
             { kind := ErrKind.internal
               message := jsOr m "Failed to deliver notification." })
        | none =>
          ({ sentEffects with
              auditRecords :=
                [{ qrCodeId := inp.qrId
                   userId := res.resolvedUserId
                   vehicleId := res.resolvedVehicleId
                   reason := jsOr (objGetD res.cleanedMetadata "reason") "other"
                   message := jsOr (objGetD res.cleanedMetadata "message") inp.body
                   status := "sent"
                   read := false }] },
           Except.ok
             { userId := res.resolvedUserId
               vehicleId := res.resolvedVehicleId })

/-! ## Auxiliary and spec-side definitions -/

instance {ε α : Type} [DecidableEq ε] [DecidableEq α] : DecidableEq (Except ε α) :=
  fun x y =>
    match x, y with
    | Except.error a, Except.error b =>
      if h : a = b then isTrue (by rw [h]) else isFalse (fun hc => by cases hc; exact h rfl)
    | Except.error _, Except.ok _ => isFalse (fun hc => by cases hc)
    | Except.ok _, Except.error _ => isFalse (fun hc => by cases hc)
    | Except.ok a, Except.ok b =>
      if h : a = b then isTrue (by rw [h]) else isFalse (fun hc => by cases hc; exact h rfl)

/-- Modelled from the spec's words (claim C8 as frozen): the cleaned metadata
map retains only entries whose values are non-empty strings; entries with
non-string values, and entries whose values are empty or absent, are dropped;
retained values are trimmed of surrounding whitespace. -/
def specCleanMetadata (entries : List (String × JsValue)) : List (String × String) :=
  entries.filterMap fun kv =>
    match kv.2 with
    | JsValue.str s => if (jsTrim s).isEmpty then none else some (kv.1, jsTrim s)
    | _ => none

/-- Modelled from the amended claim: entries whose values are `null` or
`undefined` are dropped; every other value is converted to a string,
trimmed, and kept exactly when the result is non-empty (so non-string
scalars are converted and retained, not dropped). -/
def specCleanMetadataAmended (entries : List (String × JsValue)) : List (String × String) :=
  entries.filterMap fun kv =>
    match kv.2 with
    | JsValue.nullV => none
    | JsValue.undefV => none
    | v =>
      let strValue := jsTrim (jsValueToString v)
      if strValue.isEmpty then none else some (kv.1, strValue)

/-- Modelled from the spec's words (claim C5 as frozen): the owner id is the
first candidate that is non-empty after trimming surrounding whitespace,
taken trimmed; `""` when no candidate qualifies. -/
def specResolveOwner : List String → String
  | [] => ""
  | c :: rest => if (jsTrim c).isEmpty then specResolveOwner rest else jsTrim c

/-- The owner-id candidate chain of lines 231-236, in source order. -/
def ownerCandidates (inp : NotifyInput) (qrData : QrDocData) : List String :=
  [qrData.userId, qrData.metaUserId,
   objGetD (cleanMetadata inp.metadata) "userId", inp.userId]

/-! ## Lemmas about the JS-object helpers -/

theorem objGet_nil {α : Type} (k : String) : objGet ([] : List (String × α)) k = none :=
  rfl

theorem objGet_cons {α : Type} (p : String × α) (l : List (String × α)) (k : String) :
    objGet (p :: l) k = if p.1 == k then some p.2 else objGet l k :=
  rfl

theorem objGet_eq_none_of_not_mem {α : Type} {l : List (String × α)} {k : String}
    (h : k ∉ l.map Prod.fst) : objGet l k = none := by
  induction l with
  | nil => rfl
  | cons p l ih =>
    simp only [List.map_cons, List.mem_cons, not_or] at h
    have hp : ¬ p.1 = k := fun hc => h.1 hc.symm
    rw [objGet_cons, if_neg (by simpa using hp)]
    exact ih h.2

theorem any_key_eq_false_iff {α : Type} {l : List (String × α)} {k : String} :
    (l.any (fun p => p.1 == k)) = false ↔ k ∉ l.map Prod.fst := by
  rw [← Bool.not_eq_true, List.any_eq_true]
  simp only [beq_iff_eq, List.mem_map]

theorem objSet_of_fresh {α : Type} {l : List (String × α)} {k : String} (v : α)
    (h : k ∉ l.map Prod.fst) : objSet l k v = l ++ [(k, v)] := by
  have ha : (l.any fun p => p.1 == k) = false := any_key_eq_false_iff.2 h
  simp [objSet, ha]

theorem objGet_append {α : Type} (l₁ l₂ : List (String × α)) (k : String) :
    objGet (l₁ ++ l₂) k =
      match objGet l₁ k with
      | some v => some v
      | none => objGet l₂ k := by
  induction l₁ with
  | nil => simp [objGet]
  | cons p l ih =>
    rw [List.cons_append, objGet_cons, objGet_cons]
    cases hp : p.1 == k <;> simp [hp, ih]

theorem objGet_map_overwrite_self {α : Type} {l : List (String × α)} {k : String} (v : α)
    (ha : (l.any fun p => p.1 == k) = true) :
    objGet (l.map (fun p => if p.1 == k then (k, v) else p)) k = some v := by
  induction l with
  | nil => simp at ha
  | cons p l ih =>
    rw [List.any_cons] at ha
    cases hp : p.1 == k with
    | true =>
      have hpk : p.1 = k := by simpa using hp
      simp [objGet_cons, hpk]
    | false =>
      rw [hp, Bool.false_or] at ha
      have hpk : ¬ p.1 = k := by simpa using hp
      simpa [objGet_cons, hpk] using ih ha

theorem objGet_map_overwrite_ne {α : Type} (l : List (String × α)) {k k' : String} (v : α)
    (h : k' ≠ k) :
    objGet (l.map (fun p => if p.1 == k then (k, v) else p)) k' = objGet l k' := by
  induction l with
  | nil => rfl
  | cons p l ih =>
    cases hp : p.1 == k with
    | true =>
      have hpk : p.1 = k := by simpa using hp
      have h1 : ¬ (k : String) = k' := fun hc => h hc.symm
      have h2 : ¬ p.1 = k' := fun hc => h (hpk ▸ hc).symm
      simpa [objGet_cons, hpk, h1, h2] using ih
    | false =>
      have hpk : ¬ p.1 = k := by simpa using hp
      cases hpk' : p.1 == k' with
      | true =>
        have hpk'' : p.1 = k' := by simpa using hpk'
        simp [objGet_cons, hpk, hpk'', h]
      | false =>
        have hpk'' : ¬ p.1 = k' := by simpa using hpk'
        simpa [objGet_cons, hpk, hpk''] using ih

theorem objGet_objSet_self {α : Type} (l : List (String × α)) (k : String) (v : α) :
    objGet (objSet l k v) k = some v := by
  unfold objSet
  by_cases ha : (l.any fun p => p.1 == k) = true
  · rw [if_pos ha]
    exact objGet_map_overwrite_self v ha
  · rw [if_neg ha]
    rw [Bool.not_eq_true] at ha
    rw [objGet_append]
    rw [objGet_eq_none_of_not_mem (any_key_eq_false_iff.1 ha)]
    simp [objGet_cons]

theorem objGet_objSet_ne {α : Type} (l : List (String × α)) {k k' : String} (v : α)
    (h : k' ≠ k) : objGet (objSet l k v) k' = objGet l k' := by
  unfold objSet
  by_cases ha : (l.any fun p => p.1 == k) = true
  · rw [if_pos ha]
    exact objGet_map_overwrite_ne l v h
  · rw [if_neg ha]
    rw [objGet_append]
    have h1 : ¬ (k : String) = k' := fun hc => h hc.symm
    cases hg : objGet l k' <;> simp [hg, objGet_cons, objGet_nil, h1]

theorem map_fst_overwrite {α : Type} (l : List (String × α)) (k : String) (v : α) :
    (l.map (fun p => if p.1 == k then (k, v) else p)).map Prod.fst = l.map Prod.fst := by
  induction l with
  | nil => rfl
  | cons p l ih =>
    simp only [List.map_cons]
    rw [ih]
    congr 1
    cases hp : p.1 == k with
    | true =>
      have hpk : p.1 = k := by simpa using hp
      simp [hpk]
    | false => simp

theorem nodupKeys_objSet {α : Type} {l : List (String × α)} (k : String) (v : α)
    (h : nodupKeys l) : nodupKeys (objSet l k v) := by
  unfold nodupKeys at *
  unfold objSet
  by_cases ha : (l.any fun p => p.1 == k) = true
  · rw [if_pos ha, map_fst_overwrite]
    exact h
  · rw [if_neg ha, List.map_append]
    rw [Bool.not_eq_true] at ha
    have hk : k ∉ l.map Prod.fst := any_key_eq_false_iff.1 ha
    simp [List.nodup_append, h, hk]

theorem objGet_foldl_objSet {α : Type} (l : List (String × α)) (base : List (String × α))
    (k : String) (hnd : nodupKeys l) :
    objGet (l.foldl (fun acc kv => objSet acc kv.1 kv.2) base) k =
      match objGet l k with
      | some v => some v
      | none => objGet base k := by
  induction l generalizing base with
  | nil => simp [objGet_nil]
  | cons kv l ih =>
    unfold nodupKeys at hnd
    rw [List.map_cons, List.nodup_cons] at hnd
    rw [List.foldl_cons, ih _ hnd.2]
    by_cases hk : k = kv.1
    · subst hk
      rw [objGet_eq_none_of_not_mem hnd.1, objGet_objSet_self, objGet_cons]
      simp
    · rw [objGet_objSet_ne base kv.2 hk, objGet_cons]
      have hb : (kv.1 == k) = false := by
        simpa using (fun hc => hk hc.symm : ¬ kv.1 = k)
      simp [hb]

theorem nodupKeys_foldl_clean (entries : List (String × JsValue)) :
    ∀ acc : List (String × String), nodupKeys acc →
      nodupKeys (entries.foldl
        (fun acc kv =>
          match cleanEntry kv with
          | none => acc
          | some p => objSet acc p.1 p.2) acc) := by
  induction entries with
  | nil => intro acc h; exact h
  | cons kv l ih =>
    intro acc h
    rw [List.foldl_cons]
    cases hce : cleanEntry kv with
    | none => exact ih acc h
    | some p => exact ih _ (nodupKeys_objSet p.1 p.2 h)

theorem nodupKeys_cleanMetadata (entries : List (String × JsValue)) :
    nodupKeys (cleanMetadata entries) :=
  nodupKeys_foldl_clean entries [] List.nodup_nil

theorem cleanEntry_key {kv : String × JsValue} {p : String × String}
    (h : cleanEntry kv = some p) : p.1 = kv.1 := by
  rcases kv with ⟨k, v⟩
  cases v with
  | nullV => exact absurd h (by simp [cleanEntry])
  | undefV => exact absurd h (by simp [cleanEntry])
  | str s =>
    simp only [cleanEntry] at h
    split at h
    · exact absurd h (by simp)
    · rw [← Option.some.inj h]
  | num n =>
    simp only [cleanEntry] at h
    split at h
    · exact absurd h (by simp)
    · rw [← Option.some.inj h]
  | boolean b =>
    simp only [cleanEntry] at h
    split at h
    · exact absurd h (by simp)
    · rw [← Option.some.inj h]

theorem cleanMetadata_foldl_eq (entries : List (String × JsValue)) :
    ∀ acc : List (String × String),
      (∀ x ∈ entries.map Prod.fst, x ∉ acc.map Prod.fst) →
      nodupKeys entries →
      entries.foldl
        (fun acc kv =>
          match cleanEntry kv with
          | none => acc
          | some p => objSet acc p.1 p.2) acc
        = acc ++ entries.filterMap cleanEntry := by
  induction entries with
  | nil => intro acc _ _; simp
  | cons kv l ih =>
    intro acc hfresh hnd
    unfold nodupKeys at hnd
    rw [List.map_cons, List.nodup_cons] at hnd
    simp only [List.foldl_cons, List.filterMap_cons]
    cases hce : cleanEntry kv with
    | none =>
      dsimp only
      rw [ih acc (fun x hx => hfresh x (by simp [hx])) hnd.2]
    | some p =>
      dsimp only
      have hp1 : p.1 = kv.1 := cleanEntry_key hce
      have hfreshp : p.1 ∉ acc.map Prod.fst := by
        rw [hp1]
        exact hfresh kv.1 (by simp)
      rw [objSet_of_fresh p.2 hfreshp]
      have hstep : ∀ x ∈ l.map Prod.fst, x ∉ (acc ++ [(p.1, p.2)]).map Prod.fst := by
        intro x hx
        rw [List.map_append, List.mem_append]
        rintro (hxa | hxp)
        · exact hfresh x (by simp [hx]) hxa
        · simp at hxp
          rw [hxp, hp1] at hx
          exact hnd.1 hx
      rw [ih _ hstep hnd.2, List.append_assoc]
      rfl

theorem cleanMetadata_eq_filterMap (entries : List (String × JsValue))
    (hnd : nodupKeys entries) :
    cleanMetadata entries = entries.filterMap cleanEntry := by
  have h := cleanMetadata_foldl_eq entries [] (by simp) hnd
  simpa [cleanMetadata] using h

/-! ## Lemmas about the rate limiter -/

theorem checkScope_error_spec {config : RateLimitConfig} {snap : Option RateLimitDoc}
    {nowMs : Int} {e : HttpsError} (h : checkScope config snap nowMs = Except.error e) :
    e = { kind := ErrKind.resourceExhausted
          message := config.message
          retryAfterSeconds := some (max 5 (ceilDiv (config.windowMs - elapsedOf snap nowMs) 1000))
          scope := some config.scope } := by
  simp only [checkScope] at h
  split at h
  · split at h
    · rw [← Except.error.inj h]
      unfold elapsedOf
      rfl
    · exact Except.noConfusion h
  · split at h
    · rw [← Except.error.inj h]
      unfold elapsedOf
      rfl
    · exact Except.noConfusion h

theorem checkScope_ok_of_within {config : RateLimitConfig} {d : RateLimitDoc} {t : Int}
    (h1 : t - d.windowStart ≤ config.windowMs) (h2 : d.count + 1 ≤ config.max) :
    checkScope config (some d) t =
      Except.ok { count := d.count + 1, windowStart := d.windowStart,
                  updatedAt := t, scope := config.scope } := by
  have h1' : ¬ (t - d.windowStart > config.windowMs) := by omega
  have h2' : ¬ (d.count + 1 > config.max) := by omega
  simp only [checkScope]
  simp [h1', h2']

theorem checkScope_ok_of_reset {config : RateLimitConfig} {d : RateLimitDoc} {t : Int}
    (h1 : config.windowMs < t - d.windowStart) (hmax : 1 ≤ config.max) :
    checkScope config (some d) t =
      Except.ok { count := 1, windowStart := t, updatedAt := t, scope := config.scope } := by
  have h2' : ¬ ((1 : Nat) > config.max) := by omega
  simp only [checkScope]
  simp [h1, h2']

theorem checkScope_none_ok {config : RateLimitConfig} (t : Int) (hmax : 1 ≤ config.max) :
    checkScope config none t =
      Except.ok { count := 1, windowStart := t, updatedAt := t, scope := config.scope } := by
  have h2' : ¬ ((1 : Nat) > config.max) := by omega
  simp only [checkScope]
  by_cases h0 : t - t > config.windowMs
  · simp [h0, h2']
  · simp [h0, h2']

theorem checkScope_reject {config : RateLimitConfig} {d : RateLimitDoc} {t : Int}
    (h1 : t - d.windowStart ≤ config.windowMs) (h2 : config.max ≤ d.count) :
    checkScope config (some d) t =
      Except.error
        { kind := ErrKind.resourceExhausted
          message := config.message
          retryAfterSeconds := some (max 5 (ceilDiv (config.windowMs - (t - d.windowStart)) 1000))
          scope := some config.scope } := by
  have h1' : ¬ (t - d.windowStart > config.windowMs) := by omega
  have h2' : d.count + 1 > config.max := by omega
  simp only [checkScope]
  simp [h1', h2']

theorem runScopeAttempts_within (config : RateLimitConfig) (t1 : Int) :
    ∀ (ts : List Int) (d : RateLimitDoc), d.windowStart = t1 →
      (∀ t ∈ ts, t1 ≤ t ∧ t ≤ t1 + config.windowMs) →
      d.count + ts.length ≤ config.max →
      ∃ d' : RateLimitDoc,
        runScopeAttempts config (some d) ts = some (some d') ∧
        d'.count = d.count + ts.length ∧ d'.windowStart = t1 := by
  intro ts
  induction ts with
  | nil =>
    intro d hws _ _
    exact ⟨d, rfl, by simp, hws⟩
  | cons t ts ih =>
    intro d hws hin hcount
    have hwithin : t - d.windowStart ≤ config.windowMs := by
      have := hin t (by simp)
      omega
    have hcnt : d.count + 1 ≤ config.max := by
      simp only [List.length_cons] at hcount
      omega
    have hstep := checkScope_ok_of_within hwithin hcnt
    simp only [runScopeAttempts]
    rw [hstep]
    obtain ⟨d', h1, h2, h3⟩ :=
      ih { count := d.count + 1, windowStart := d.windowStart,
           updatedAt := t, scope := config.scope }
        hws
        (fun t' ht' => hin t' (by simp [ht']))
        (by simp only [List.length_cons] at hcount ⊢; omega)
    refine ⟨d', h1, ?_, h3⟩
    rw [h2]
    simp only [List.length_cons]
    omega

theorem enforceRateLimits_ok_case {st : RateLimitState} {fp : String} {nowMs : Int}
    {st' : RateLimitState} (h : enforceRateLimits st fp nowMs = (st', none)) :
    ∃ d1 d2,
      checkScope RATE_LIMIT_CONFIG.perOrigin (objGet st.originDocs fp) nowMs = Except.ok d1 ∧
      checkScope RATE_LIMIT_CONFIG.perQr st.qrDoc nowMs = Except.ok d2 ∧
      st' = { originDocs := objSet st.originDocs fp d1, qrDoc := some d2 } := by
  unfold enforceRateLimits at h
  cases h1 : checkScope RATE_LIMIT_CONFIG.perOrigin (objGet st.originDocs fp) nowMs with
  | error e1 =>
    rw [h1] at h
    injection h with _ hb
    exact Option.noConfusion hb
  | ok d1 =>
    rw [h1] at h
    cases h2 : checkScope RATE_LIMIT_CONFIG.perQr st.qrDoc nowMs with
    | error e2 =>
      rw [h2] at h
      injection h with _ hb
      exact Option.noConfusion hb
    | ok d2 =>
      rw [h2] at h
      injection h with ha _
      exact ⟨d1, d2, rfl, rfl, ha.symm⟩

theorem enforceRateLimits_error_case {st : RateLimitState} {fp : String} {nowMs : Int}
    {st' : RateLimitState} {e : HttpsError}
    (h : enforceRateLimits st fp nowMs = (st', some e)) :
    st' = st ∧
    (checkScope RATE_LIMIT_CONFIG.perOrigin (objGet st.originDocs fp) nowMs = Except.error e ∨
     ((∃ d1, checkScope RATE_LIMIT_CONFIG.perOrigin (objGet st.originDocs fp) nowMs = Except.ok d1) ∧
      checkScope RATE_LIMIT_CONFIG.perQr st.qrDoc nowMs = Except.error e)) := by
  unfold enforceRateLimits at h
  cases h1 : checkScope RATE_LIMIT_CONFIG.perOrigin (objGet st.originDocs fp) nowMs with
  | error e1 =>
    rw [h1] at h
    injection h with ha hb
    obtain rfl : e1 = e := Option.some.inj hb
    exact ⟨ha.symm, Or.inl rfl⟩
  | ok d1 =>
    rw [h1] at h
    cases h2 : checkScope RATE_LIMIT_CONFIG.perQr st.qrDoc nowMs with
    | error e2 =>
      rw [h2] at h
      injection h with ha hb
      obtain rfl : e2 = e := Option.some.inj hb
      exact ⟨ha.symm, Or.inr ⟨⟨d1, rfl⟩, rfl⟩⟩
    | ok d2 =>
      rw [h2] at h
      injection h with _ hb
      exact Option.noConfusion hb

/-! ## Claims C1-C4: the rate limiter -/

/-- C1: for each rate-limit scope (per-origin: max 3, window 60s; per-code:
max 8, window 60s), when all attempts fall within the window of the first,
every one of the first `max` attempts is accepted (the final counter reads
`max`) and the `(max+1)`-th attempt is rejected with a resource-exhausted
error. -/
theorem claim1_scope_mth_accepted_next_rejected
    (config : RateLimitConfig)
    (hcfg : config = RATE_LIMIT_CONFIG.perOrigin ∨ config = RATE_LIMIT_CONFIG.perQr)
    (ts : List Int) (t1 tNext : Int)
    (hhead : ts.head? = some t1)
    (hlen : ts.length = config.max)
    (hin : ∀ t ∈ ts, t1 ≤ t ∧ t ≤ t1 + config.windowMs)
    (hnext : t1 ≤ tNext ∧ tNext ≤ t1 + config.windowMs) :
    (RATE_LIMIT_CONFIG.perOrigin.windowMs = 60000 ∧ RATE_LIMIT_CONFIG.perOrigin.max = 3 ∧
     RATE_LIMIT_CONFIG.perQr.windowMs = 60000 ∧ RATE_LIMIT_CONFIG.perQr.max = 8) ∧
    ∃ d' : RateLimitDoc,
      runScopeAttempts config none ts = some (some d') ∧
      d'.count = config.max ∧
      ∃ e, checkScope config (some d') tNext = Except.error e ∧
        e.kind = ErrKind.resourceExhausted := by
  have hmax : 1 ≤ config.max := by rcases hcfg with rfl | rfl <;> decide
  refine ⟨⟨rfl, rfl, rfl, rfl⟩, ?_⟩
  cases ts with
  | nil => exact Option.noConfusion hhead
  | cons t0 rest =>
    have ht0 : t0 = t1 := by simpa using hhead
    subst ht0
    simp only [runScopeAttempts]
    rw [checkScope_none_ok t0 hmax]
    obtain ⟨d', h1, h2, h3⟩ :=
      runScopeAttempts_within config t0 rest
        { count := 1, windowStart := t0, updatedAt := t0, scope := config.scope }
        rfl
        (fun t ht => hin t (by simp [ht]))
        (by simp only [List.length_cons] at hlen
            simp only []
            omega)
    have h2' : d'.count = 1 + rest.length := by simpa using h2
    have hlen' : rest.length + 1 = config.max := by
      simpa using hlen
    have hcount : d'.count = config.max := by omega
    refine ⟨d', h1, hcount, ?_⟩
    have hwithin2 : tNext - d'.windowStart ≤ config.windowMs := by
      rw [h3]
      omega
    have hcnt2 : config.max ≤ d'.count := by omega
    exact ⟨_, checkScope_reject hwithin2 hcnt2, rfl⟩

/-- Witness for C1 at the per-origin scope: three attempts at 0, 10, 20 ms
are all accepted and a fourth at 30 ms is rejected. -/
theorem claim1_witness :
    (RATE_LIMIT_CONFIG.perOrigin.windowMs = 60000 ∧ RATE_LIMIT_CONFIG.perOrigin.max = 3 ∧
     RATE_LIMIT_CONFIG.perQr.windowMs = 60000 ∧ RATE_LIMIT_CONFIG.perQr.max = 8) ∧
    ∃ d' : RateLimitDoc,
      runScopeAttempts RATE_LIMIT_CONFIG.perOrigin none [0, 10, 20] = some (some d') ∧
      d'.count = RATE_LIMIT_CONFIG.perOrigin.max ∧
      ∃ e, checkScope RATE_LIMIT_CONFIG.perOrigin (some d') 30 = Except.error e ∧
        e.kind = ErrKind.resourceExhausted :=
  claim1_scope_mth_accepted_next_rejected RATE_LIMIT_CONFIG.perOrigin (Or.inl rfl)
    [0, 10, 20] 0 30 rfl (by decide) (by decide) (by decide)

/-- C2: for either scope, when the elapsed time since the stored
`windowStart` strictly exceeds the window, the next attempt is accepted with
`count` reset to 1 and `windowStart` set to the current time. -/
theorem claim2_window_elapsed_resets_counter
    (config : RateLimitConfig)
    (hcfg : config = RATE_LIMIT_CONFIG.perOrigin ∨ config = RATE_LIMIT_CONFIG.perQr)
    (d : RateLimitDoc) (t : Int)
    (h : config.windowMs < t - d.windowStart) :
    checkScope config (some d) t =
      Except.ok { count := 1, windowStart := t, updatedAt := t, scope := config.scope } := by
  have hmax : 1 ≤ config.max := by rcases hcfg with rfl | rfl <;> decide
  exact checkScope_ok_of_reset h hmax

/-- Witness for C2: a per-code counter at its maximum, 60001 ms after its
window start, is reset to 1 and accepted. -/
theorem claim2_witness :
    checkScope RATE_LIMIT_CONFIG.perQr
        (some { count := 8, windowStart := 0, updatedAt := 0, scope := "qr" }) 60001 =
      Except.ok { count := 1, windowStart := 60001, updatedAt := 60001,
                  scope := RATE_LIMIT_CONFIG.perQr.scope } :=
  claim2_window_elapsed_resets_counter RATE_LIMIT_CONFIG.perQr (Or.inr rfl)
    { count := 8, windowStart := 0, updatedAt := 0, scope := "qr" } 60001 (by decide)

/-- C3: one call to `enforceRateLimits` either updates both scope documents
together (both checks passed) or, when either scope is exhausted, fails with
a resource-exhausted error and leaves both documents exactly as they were. -/
theorem claim3_both_scopes_atomic (st : RateLimitState) (fp : String) (nowMs : Int) :
    (∀ st', enforceRateLimits st fp nowMs = (st', none) →
        ∃ d1 d2,
          checkScope RATE_LIMIT_CONFIG.perOrigin (objGet st.originDocs fp) nowMs = Except.ok d1 ∧
          checkScope RATE_LIMIT_CONFIG.perQr st.qrDoc nowMs = Except.ok d2 ∧
          st' = { originDocs := objSet st.originDocs fp d1, qrDoc := some d2 }) ∧
    (∀ st' e, enforceRateLimits st fp nowMs = (st', some e) →
        st' = st ∧ e.kind = ErrKind.resourceExhausted ∧
        (checkScope RATE_LIMIT_CONFIG.perOrigin (objGet st.originDocs fp) nowMs = Except.error e ∨
         ((∃ d1, checkScope RATE_LIMIT_CONFIG.perOrigin (objGet st.originDocs fp) nowMs = Except.ok d1) ∧
          checkScope RATE_LIMIT_CONFIG.perQr st.qrDoc nowMs = Except.error e))) := by
  constructor
  · intro st' h
    exact enforceRateLimits_ok_case h
  · intro st' e h
    obtain ⟨hst, hcase⟩ := enforceRateLimits_error_case h
    refine ⟨hst, ?_, hcase⟩
    rcases hcase with h1 | ⟨_, h2⟩
    · rw [checkScope_error_spec h1]
    · rw [checkScope_error_spec h2]

/-- Witness for C3: with the per-code counter at its maximum, the attempt is
rejected and the state is returned unchanged. -/
theorem claim3_witness :
    (enforceRateLimits
        { originDocs := [], qrDoc := some { count := 8, windowStart := 0, updatedAt := 0, scope := "qr" } }
        "f" 5).1
      = { originDocs := [], qrDoc := some { count := 8, windowStart := 0, updatedAt := 0, scope := "qr" } } ∧
    ∃ e, (enforceRateLimits
        { originDocs := [], qrDoc := some { count := 8, windowStart := 0, updatedAt := 0, scope := "qr" } }
        "f" 5).2 = some e ∧ e.kind = ErrKind.resourceExhausted := by
  have h0 : enforceRateLimits
      { originDocs := [], qrDoc := some { count := 8, windowStart := 0, updatedAt := 0, scope := "qr" } }
      "f" 5 =
      ({ originDocs := [], qrDoc := some { count := 8, windowStart := 0, updatedAt := 0, scope := "qr" } },
       some { kind := ErrKind.resourceExhausted
              message := RATE_LIMIT_CONFIG.perQr.message
              retryAfterSeconds := some 60
              scope := some "qr" }) := by decide
  have h :=
    (claim3_both_scopes_atomic
      { originDocs := [], qrDoc := some { count := 8, windowStart := 0, updatedAt := 0, scope := "qr" } }
      "f" 5).2
      { originDocs := [], qrDoc := some { count := 8, windowStart := 0, updatedAt := 0, scope := "qr" } }
      { kind := ErrKind.resourceExhausted
        message := RATE_LIMIT_CONFIG.perQr.message
        retryAfterSeconds := some 60
        scope := some "qr" }
      h0
  refine ⟨by rw [h0], ⟨_, by rw [h0], h.2.1⟩⟩

/-- C4 counterexample: a per-code rejection carries `scope = "qr"`, which is
neither `"origin"` nor the `"code"` the claim announces. -/
theorem claim4_counterexample :
    (enforceRateLimits
        { originDocs := [], qrDoc := some { count := 8, windowStart := 0, updatedAt := 0, scope := "qr" } }
        "f" 5).2
      = some { kind := ErrKind.resourceExhausted
               message := RATE_LIMIT_CONFIG.perQr.message
               retryAfterSeconds := some 60
               scope := some "qr" } ∧
    (some "qr" : Option String) ≠ some "code" ∧
    (some "qr" : Option String) ≠ some "origin" := by
  refine ⟨by decide, by decide, by decide⟩

/-- C4 as amended: every rate-limit failure is resource-exhausted, carries
`retryAfterSeconds = max(5, ceil((window - elapsed) / 1000))` for the
exhausted scope (hence an integer at least 5), and identifies the exhausted
scope as `"origin"` or `"qr"` (the code labels the per-code scope `"qr"`,
not `"code"`). -/
theorem claim4_amended_exhausted_error_details
    (st : RateLimitState) (fp : String) (nowMs : Int) (st' : RateLimitState) (e : HttpsError)
    (h : enforceRateLimits st fp nowMs = (st', some e)) :
    e.kind = ErrKind.resourceExhausted ∧
    (∃ n, e.retryAfterSeconds = some n ∧ 5 ≤ n) ∧
    ((e.scope = some "origin" ∧
      e.retryAfterSeconds =
        some (max 5 (ceilDiv (RATE_LIMIT_CONFIG.perOrigin.windowMs -
          elapsedOf (objGet st.originDocs fp) nowMs) 1000)) ∧
      e.message = RATE_LIMIT_CONFIG.perOrigin.message) ∨
     (e.scope = some "qr" ∧
      e.retryAfterSeconds =
        some (max 5 (ceilDiv (RATE_LIMIT_CONFIG.perQr.windowMs -
          elapsedOf st.qrDoc nowMs) 1000)) ∧
      e.message = RATE_LIMIT_CONFIG.perQr.message)) := by
  obtain ⟨_, hcase⟩ := enforceRateLimits_error_case h
  rcases hcase with h1 | ⟨_, h2⟩
  · have he := checkScope_error_spec h1
    subst he
    exact ⟨rfl, ⟨_, rfl, le_max_left 5 _⟩, Or.inl ⟨rfl, rfl, rfl⟩⟩
  · have he := checkScope_error_spec h2
    subst he
    exact ⟨rfl, ⟨_, rfl, le_max_left 5 _⟩, Or.inr ⟨rfl, rfl, rfl⟩⟩

/-- Witness for the amended C4 at a concrete per-code rejection. -/
theorem claim4_witness :
    ({ kind := ErrKind.resourceExhausted
       message := RATE_LIMIT_CONFIG.perQr.message
       retryAfterSeconds := some 60
       scope := some "qr" } : HttpsError).kind = ErrKind.resourceExhausted ∧
    (∃ n, ({ kind := ErrKind.resourceExhausted
             message := RATE_LIMIT_CONFIG.perQr.message
             retryAfterSeconds := some 60
             scope := some "qr" } : HttpsError).retryAfterSeconds = some n ∧ 5 ≤ n) := by
  have h :=
    claim4_amended_exhausted_error_details
      { originDocs := [], qrDoc := some { count := 8, windowStart := 0, updatedAt := 0, scope := "qr" } }
      "f" 5
      { originDocs := [], qrDoc := some { count := 8, windowStart := 0, updatedAt := 0, scope := "qr" } }
      { kind := ErrKind.resourceExhausted
        message := RATE_LIMIT_CONFIG.perQr.message
        retryAfterSeconds := some 60
        scope := some "qr" }
      (by decide)
  exact ⟨h.1, h.2.1⟩

/-! ## Claim C6: validation -/

theorem mem_missingFields (inp : NotifyInput) (f : String) :
    f ∈ missingFields inp ↔
      ((f = "qrId" ∧ inp.qrId = "") ∨ (f = "title" ∧ inp.title = "") ∨
       (f = "body" ∧ inp.body = "")) := by
  by_cases h1 : inp.qrId = "" <;> by_cases h2 : inp.title = "" <;> by_cases h3 : inp.body = "" <;>
    simp [missingFields, String.isEmpty_iff, h1, h2, h3]

theorem validate_eq_none_iff (inp : NotifyInput) :
    validate inp = none ↔ (inp.qrId ≠ "" ∧ inp.title ≠ "" ∧ inp.body ≠ "") := by
  by_cases h1 : inp.qrId = "" <;> by_cases h2 : inp.title = "" <;> by_cases h3 : inp.body = "" <;>
    simp [validate, String.isEmpty_iff, h1, h2, h3]

theorem validate_some_spec {inp : NotifyInput} {e : HttpsError}
    (he : validate inp = some e) :
    e.kind = ErrKind.invalidArgument ∧
    e.message = "Missing required fields: " ++ String.intercalate ", " (missingFields inp) := by
  unfold validate at he
  split at he
  · obtain rfl := Option.some.inj he
    exact ⟨rfl, rfl⟩
  · exact Option.noConfusion he

/-- C6: validation requires exactly a non-empty `qrId`, `title` and `body`
(the remaining fields do not participate in validation); when any of the
three is missing the request fails with `invalid-argument` and the message
lists exactly the names of the missing fields. -/
theorem claim6_validation_three_fields (inp : NotifyInput) :
    (validate inp = none ↔ (inp.qrId ≠ "" ∧ inp.title ≠ "" ∧ inp.body ≠ "")) ∧
    (∀ e, validate inp = some e →
        e.kind = ErrKind.invalidArgument ∧
        e.message = "Missing required fields: " ++ String.intercalate ", " (missingFields inp) ∧
        (∀ f, f ∈ missingFields inp ↔
          ((f = "qrId" ∧ inp.qrId = "") ∨ (f = "title" ∧ inp.title = "") ∨
           (f = "body" ∧ inp.body = "")))) ∧
    (∀ inp' : NotifyInput, inp'.qrId = inp.qrId → inp'.title = inp.title →
        inp'.body = inp.body → validate inp' = validate inp) ∧
    (∀ env e, validate inp = some e →
        notifyOwner inp env = (noEffects env, Except.error e)) := by
  refine ⟨validate_eq_none_iff inp, ?_, ?_, ?_⟩
  · intro e he
    obtain ⟨hk, hm⟩ := validate_some_spec he
    exact ⟨hk, hm, mem_missingFields inp⟩
  · intro inp' e1 e2 e3
    unfold validate missingFields
    rw [e1, e2, e3]
  · intro env e he
    simp only [notifyOwner, he]

/-- Witness for C6: an input missing `qrId` and `body` is rejected with
`invalid-argument` and the message names exactly those two fields. -/
theorem claim6_witness :
    ({ kind := ErrKind.invalidArgument,
       message := "Missing required fields: qrId, body" } : HttpsError).kind
        = ErrKind.invalidArgument ∧
    ({ kind := ErrKind.invalidArgument,
       message := "Missing required fields: qrId, body" } : HttpsError).message =
      "Missing required fields: " ++
        String.intercalate ", " (missingFields { qrId := "", title := "t", body := "" }) ∧
    (∀ f, f ∈ missingFields { qrId := "", title := "t", body := "" } ↔
      ((f = "qrId" ∧ ({ qrId := "", title := "t", body := "" } : NotifyInput).qrId = "") ∨
       (f = "title" ∧ ({ qrId := "", title := "t", body := "" } : NotifyInput).title = "") ∨
       (f = "body" ∧ ({ qrId := "", title := "t", body := "" } : NotifyInput).body = ""))) :=
  (claim6_validation_three_fields { qrId := "", title := "t", body := "" }).2.1
    { kind := ErrKind.invalidArgument, message := "Missing required fields: qrId, body" }
    (by decide)

/-! ## Lemmas about the pre-send phase -/

theorem jsOr_chain_eq_firstTruthy (a b c d : String) :
    jsOr a (jsOr b (jsOr c d)) = firstTruthy [a, b, c, d] := by
  by_cases ha : a = "" <;> by_cases hb : b = "" <;> by_cases hc : c = "" <;>
    by_cases hd : d = "" <;>
    simp [jsOr, firstTruthy, String.isEmpty_iff, ha, hb, hc, hd]

theorem preSend_error_of_no_qr {inp : NotifyInput} {env : Env}
    (hqr : env.qrDoc = none) :
    preSend inp env =
      Except.error
        { kind := ErrKind.notFound
          message := "This QR code is not linked to any owner profile yet." } := by
  simp [preSend, hqr]

theorem preSend_error_of_inactive {inp : NotifyInput} {env : Env} {qrData : QrDocData}
    (hqr : env.qrDoc = some qrData) (hact : qrData.isActiveFalse = true) :
    preSend inp env =
      Except.error
        { kind := ErrKind.failedPrecondition
          message := "This QR code is currently inactive." } := by
  simp [preSend, hqr, hact]

theorem preSend_error_of_unresolved {inp : NotifyInput} {env : Env} {qrData : QrDocData}
    (hqr : env.qrDoc = some qrData) (hact : qrData.isActiveFalse = false)
    (hres : jsTrim (jsOr qrData.userId (jsOr qrData.metaUserId
      (jsOr (objGetD (cleanMetadata inp.metadata) "userId") inp.userId))) = "") :
    preSend inp env =
      Except.error
        { kind := ErrKind.failedPrecondition
          message := "Could not resolve owner account for this QR code." } := by
  simp [preSend, hqr, hact, hres, show ("" : String).isEmpty = true from rfl]

theorem preSend_ok_spec {inp : NotifyInput} {env : Env} {res : Resolved}
    (h : preSend inp env = Except.ok res) :
    ∃ qrData, env.qrDoc = some qrData ∧
      res.resolvedUserId =
        jsTrim (jsOr qrData.userId (jsOr qrData.metaUserId
          (jsOr (objGetD (cleanMetadata inp.metadata) "userId") inp.userId))) ∧
      res.resolvedVehicleId =
        jsTrim (jsOr qrData.vehicleId (jsOr qrData.metaVehicleId
          (jsOr (objGetD (cleanMetadata inp.metadata) "vehicleId") inp.vehicleId))) ∧
      res.cleanedMetadata =
        buildCleanedMeta (cleanMetadata inp.metadata) res.resolvedUserId res.resolvedVehicleId ∧
      res.dataPayload =
        buildDataPayload inp.qrId res.resolvedUserId res.resolvedVehicleId res.cleanedMetadata ∧
      res.resolvedUserId ≠ "" := by
  cases hqr : env.qrDoc with
  | none =>
    rw [preSend_error_of_no_qr hqr] at h
    exact Except.noConfusion h
  | some qrData =>
    refine ⟨qrData, rfl, ?_⟩
    cases hact : qrData.isActiveFalse with
    | true =>
      rw [preSend_error_of_inactive hqr hact] at h
      exact Except.noConfusion h
    | false =>
      by_cases hres : jsTrim (jsOr qrData.userId (jsOr qrData.metaUserId
          (jsOr (objGetD (cleanMetadata inp.metadata) "userId") inp.userId))) = ""
      · rw [preSend_error_of_unresolved hqr hact hres] at h
        exact Except.noConfusion h
      · have hempty : (jsTrim (jsOr qrData.userId (jsOr qrData.metaUserId
            (jsOr (objGetD (cleanMetadata inp.metadata) "userId") inp.userId)))).isEmpty = false := by
          rw [← Bool.not_eq_true]
          intro hc
          exact hres (String.isEmpty_iff _ |>.mp hc)
        simp [preSend, hqr, hact, hempty] at h
        repeat' split at h
        all_goals
          first
          | exact Except.noConfusion h
          | (obtain rfl := Except.ok.inj h
             exact ⟨rfl, rfl, rfl, rfl, hres⟩)

/-! ## Claim C5: owner resolution precedence -/

/-- C5 counterexample: with a code record whose owner field is the
whitespace-only string `" "` and a caller-supplied owner `"B"`, the spec's
resolution rule (first candidate non-empty after trimming) yields `"B"`, but
the code picks the whitespace candidate (non-empty before trimming), trims it
to `""`, and fails with `failed-precondition` instead of resolving `"B"`. -/
theorem claim5_counterexample :
    specResolveOwner [" ", "", "", "B"] = "B" ∧
    ("B" : String) ≠ "" ∧
    ownerCandidates { qrId := "qr1", userId := "B", title := "t", body := "b" }
        { userId := " " } = [" ", "", "", "B"] ∧
    preSend { qrId := "qr1", userId := "B", title := "t", body := "b" }
        { qrDoc := some { userId := " " }, users := [("B", { fcmToken := "tok" })] } =
      Except.error
        { kind := ErrKind.failedPrecondition
          message := "Could not resolve owner account for this QR code." } :=
  ⟨by decide, by decide, by decide, by decide⟩

/-- C5 as amended: the owner id is the first candidate that is non-empty
BEFORE trimming (code owner field, code metadata owner, caller metadata
owner, caller owner id, in that order), with the selected candidate then
trimmed; the request fails with `failed-precondition` when that trimmed
selection is empty (in particular when every candidate is empty, but also
when an earlier whitespace-only candidate shadows a later non-empty one).
With a code record owner `A` that is non-empty, the resolved owner is
`A.trim` regardless of the caller-supplied owner. -/
theorem claim5_amended_owner_precedence
    (inp : NotifyInput) (env : Env) (qrData : QrDocData)
    (hqr : env.qrDoc = some qrData) (hact : qrData.isActiveFalse = false) :
    (jsTrim (firstTruthy (ownerCandidates inp qrData)) = "" →
      preSend inp env =
        Except.error
          { kind := ErrKind.failedPrecondition
            message := "Could not resolve owner account for this QR code." }) ∧
    (∀ res, preSend inp env = Except.ok res →
      res.resolvedUserId = jsTrim (firstTruthy (ownerCandidates inp qrData)) ∧
      res.resolvedUserId ≠ "") ∧
    (∀ res, preSend inp env = Except.ok res → qrData.userId ≠ "" →
      res.resolvedUserId = jsTrim qrData.userId) := by
  have hchain :
      jsOr qrData.userId (jsOr qrData.metaUserId
        (jsOr (objGetD (cleanMetadata inp.metadata) "userId") inp.userId)) =
      firstTruthy (ownerCandidates inp qrData) :=
    jsOr_chain_eq_firstTruthy _ _ _ _
  refine ⟨?_, ?_, ?_⟩
  · intro hres
    exact preSend_error_of_unresolved hqr hact (by rw [hchain]; exact hres)
  · intro res hok
    obtain ⟨qrData', hqr', huid, _, _, _, hne⟩ := preSend_ok_spec hok
    have hq : qrData' = qrData := by
      rw [hqr] at hqr'
      exact (Option.some.inj hqr').symm
    rw [hq] at huid
    exact ⟨by rw [huid, hchain], hne⟩
  · intro res hok huser
    obtain ⟨qrData', hqr', huid, _, _, _, _⟩ := preSend_ok_spec hok
    have hq : qrData' = qrData := by
      rw [hqr] at hqr'
      exact (Option.some.inj hqr').symm
    rw [hq] at huid
    rw [huid]
    have hfirst : jsOr qrData.userId (jsOr qrData.metaUserId
        (jsOr (objGetD (cleanMetadata inp.metadata) "userId") inp.userId)) = qrData.userId := by
      simp [jsOr, String.isEmpty_iff, huser]
    rw [hfirst]

/-- Witness for the amended C5: a code record owner `" A "` wins over a
caller-supplied owner `"B"` and is trimmed to `"A"`. -/
theorem claim5_witness :
    ({ cleanedMetadata := [("userId", "A")]
       resolvedUserId := "A"
       resolvedVehicleId := ""
       resolvedFcmToken := "tok"
       dataPayload := [("qrId", "qr1"), ("userId", "A"), ("source", "avahanaa-web")]
       rlState :=
         { originDocs := [("anonymous", { count := 1, windowStart := 0, updatedAt := 0, scope := "origin" })]
           qrDoc := some { count := 1, windowStart := 0, updatedAt := 0, scope := "qr" } } } :
      Resolved).resolvedUserId = jsTrim " A " := by
  have hok : preSend { qrId := "qr1", userId := "B", title := "t", body := "b" }
      { qrDoc := some { userId := " A " }, users := [("A", { fcmToken := "tok" })] } =
      Except.ok
        { cleanedMetadata := [("userId", "A")]
          resolvedUserId := "A"
          resolvedVehicleId := ""
          resolvedFcmToken := "tok"
          dataPayload := [("qrId", "qr1"), ("userId", "A"), ("source", "avahanaa-web")]
          rlState :=
            { originDocs := [("anonymous", { count := 1, windowStart := 0, updatedAt := 0, scope := "origin" })]
              qrDoc := some { count := 1, windowStart := 0, updatedAt := 0, scope := "qr" } } } := by
    decide
  exact (claim5_amended_owner_precedence
      { qrId := "qr1", userId := "B", title := "t", body := "b" }
      { qrDoc := some { userId := " A " }, users := [("A", { fcmToken := "tok" })] }
      { userId := " A " } rfl rfl).2.2 _ hok (by decide)

/-! ## Claim C8: metadata cleaning -/

/-- C8 counterexample: the numeric metadata value `42` is retained as the
string `"42"`, while the claim says entries with non-string values are
dropped. -/
theorem claim8_counterexample :
    cleanMetadata [("k", JsValue.num 42)] = [("k", "42")] ∧
    specCleanMetadata [("k", JsValue.num 42)] = [] ∧
    ([("k", "42")] : List (String × String)) ≠ [] :=
  ⟨by decide, by decide, by decide⟩

/-- C8 as amended: on a metadata object (distinct keys), the cleaned map
retains exactly the entries whose values are neither null nor undefined and
whose string conversion is non-empty after trimming; retained values are the
trimmed string conversions. String-valued entries behave as the claim says;
non-string scalars are converted to strings rather than dropped. -/
theorem claim8_amended_clean_metadata (entries : List (String × JsValue))
    (hnd : nodupKeys entries) :
    cleanMetadata entries = specCleanMetadataAmended entries := by
  rw [cleanMetadata_eq_filterMap entries hnd]
  rfl

/-- Witness for the amended C8 on a mixed metadata object: the number is
converted, the string is trimmed, and the null and whitespace-only entries
are dropped. -/
theorem claim8_witness :
    cleanMetadata
        [("k", JsValue.num 42), ("s", JsValue.str " x "), ("n", JsValue.nullV),
         ("e", JsValue.str " ")] =
      specCleanMetadataAmended
        [("k", JsValue.num 42), ("s", JsValue.str " x "), ("n", JsValue.nullV),
         ("e", JsValue.str " ")] :=
  claim8_amended_clean_metadata
    [("k", JsValue.num 42), ("s", JsValue.str " x "), ("n", JsValue.nullV),
     ("e", JsValue.str " ")]
    (by unfold nodupKeys; decide)

/-! ## Lemmas about the send phase of `notifyOwner` -/

theorem notifyOwner_of_validate_error {inp : NotifyInput} {env : Env} {e : HttpsError}
    (hv : validate inp = some e) :
    notifyOwner inp env = (noEffects env, Except.error e) := by
  simp [notifyOwner, hv]

theorem notifyOwner_of_preSend_error {inp : NotifyInput} {env : Env} {e : HttpsError}
    (hv : validate inp = none) (hp : preSend inp env = Except.error e) :
    notifyOwner inp env = (noEffects env, Except.error e) := by
  simp [notifyOwner, hv, hp]

theorem notifyOwner_of_tokenNotRegistered {inp : NotifyInput} {env : Env} {res : Resolved}
    (hv : validate inp = none) (hp : preSend inp env = Except.ok res)
    (hs : env.sendOutcome = SendOutcome.tokenNotRegistered) :
    notifyOwner inp env =
      ({ rlState := res.rlState
         sendAttempts := [{ token := res.resolvedFcmToken, title := inp.title,
                            body := inp.body, data := res.dataPayload }]
         tokenClearWrites := [{ userId := res.resolvedUserId, deletesFcmToken := true,
                                setsFcmTokenUpdatedAt := true,
                                succeeded := !env.clearTokenWriteFails }]
         auditRecords := []
         resolvedOwner := some res.resolvedUserId },
       Except.error
         { kind := ErrKind.failedPrecondition
           message := "The notification token for this user is no longer valid. Ask them to open the app to refresh it." }) := by
  simp [notifyOwner, hv, hp, hs]

theorem notifyOwner_of_send_failed {inp : NotifyInput} {env : Env} {res : Resolved} {m : String}
    (hv : validate inp = none) (hp : preSend inp env = Except.ok res)
    (hs : env.sendOutcome = SendOutcome.failed m) :
    notifyOwner inp env =
      ({ rlState := res.rlState
         sendAttempts := [{ token := res.resolvedFcmToken, title := inp.title,
                            body := inp.body, data := res.dataPayload }]
         tokenClearWrites := []
         auditRecords := []
         resolvedOwner := some res.resolvedUserId },
       Except.error
         { kind := ErrKind.internal
           message := jsOr m "Failed to deliver notification." }) := by
  simp [notifyOwner, hv, hp, hs]

theorem notifyOwner_of_audit_failed {inp : NotifyInput} {env : Env} {res : Resolved} {m : String}
    (hv : validate inp = none) (hp : preSend inp env = Except.ok res)
    (hs : env.sendOutcome = SendOutcome.success) (ha : env.auditAddFails = some m) :
    notifyOwner inp env =
      ({ rlState := res.rlState
         sendAttempts := [{ token := res.resolvedFcmToken, title := inp.title,
                            body := inp.body, data := res.dataPayload }]
         tokenClearWrites := []
         auditRecords := []
         resolvedOwner := some res.resolvedUserId },
       Except.error
         { kind := ErrKind.internal
           message := jsOr m "Failed to deliver notification." }) := by
  simp [notifyOwner, hv, hp, hs, ha]

theorem notifyOwner_of_success {inp : NotifyInput} {env : Env} {res : Resolved}
    (hv : validate inp = none) (hp : preSend inp env = Except.ok res)
    (hs : env.sendOutcome = SendOutcome.success) (ha : env.auditAddFails = none) :
    notifyOwner inp env =
      ({ rlState := res.rlState
         sendAttempts := [{ token := res.resolvedFcmToken, title := inp.title,
                            body := inp.body, data := res.dataPayload }]
         tokenClearWrites := []
         auditRecords :=
           [{ qrCodeId := inp.qrId
              userId := res.resolvedUserId
              vehicleId := res.resolvedVehicleId
              reason := jsOr (objGetD res.cleanedMetadata "reason") "other"
              message := jsOr (objGetD res.cleanedMetadata "message") inp.body
              status := "sent"
              read := false }]
         resolvedOwner := some res.resolvedUserId },
       Except.ok { userId := res.resolvedUserId, vehicleId := res.resolvedVehicleId }) := by
  simp [notifyOwner, hv, hp, hs, ha]

theorem preSend_ignores_clearTokenWriteFails (inp : NotifyInput) (env : Env) (b : Bool) :
    preSend inp { env with clearTokenWriteFails := b } = preSend inp env :=
  rfl

/-! ## Claim C7: permanent-invalid-token handling -/

/-- C7: when the gateway reports the token as permanently invalid, the
handler issues exactly one cleanup write against the resolved owner's record
(deleting the stored token and stamping the update timestamp) and the caller
receives the `failed-precondition` "token no longer valid" error; the
response is the same whether the cleanup write succeeds or fails. -/
theorem claim7_invalid_token_cleanup
    (inp : NotifyInput) (env : Env) (res : Resolved)
    (hv : validate inp = none) (hp : preSend inp env = Except.ok res)
    (hs : env.sendOutcome = SendOutcome.tokenNotRegistered) :
    (notifyOwner inp env).2 =
      Except.error
        { kind := ErrKind.failedPrecondition
          message := "The notification token for this user is no longer valid. Ask them to open the app to refresh it." } ∧
    (notifyOwner inp env).1.tokenClearWrites =
      [{ userId := res.resolvedUserId, deletesFcmToken := true,
         setsFcmTokenUpdatedAt := true, succeeded := !env.clearTokenWriteFails }] ∧
    (notifyOwner inp env).1.resolvedOwner = some res.resolvedUserId ∧
    (∀ b, (notifyOwner inp { env with clearTokenWriteFails := b }).2 =
      (notifyOwner inp env).2) := by
  have h := notifyOwner_of_tokenNotRegistered hv hp hs
  refine ⟨by rw [h], by rw [h], by rw [h], ?_⟩
  intro b
  have hp' : preSend inp { env with clearTokenWriteFails := b } = Except.ok res := by
    rw [preSend_ignores_clearTokenWriteFails]
    exact hp
  have hs' : ({ env with clearTokenWriteFails := b } : Env).sendOutcome =
      SendOutcome.tokenNotRegistered := hs
  have h' := notifyOwner_of_tokenNotRegistered hv hp' hs'
  rw [h, h']

/-- Witness for C7: a concrete run in which the gateway rejects the token
permanently; the cleanup write targets owner `"A"` and the caller gets the
refresh-token precondition error. -/
theorem claim7_witness :
    (notifyOwner { qrId := "qr1", userId := "B", title := "t", body := "b" }
        { qrDoc := some { userId := " A " }, users := [("A", { fcmToken := "tok" })],
          sendOutcome := SendOutcome.tokenNotRegistered }).2 =
      Except.error
        { kind := ErrKind.failedPrecondition
          message := "The notification token for this user is no longer valid. Ask them to open the app to refresh it." } ∧
    (notifyOwner { qrId := "qr1", userId := "B", title := "t", body := "b" }
        { qrDoc := some { userId := " A " }, users := [("A", { fcmToken := "tok" })],
          sendOutcome := SendOutcome.tokenNotRegistered }).1.tokenClearWrites =
      [{ userId := "A", deletesFcmToken := true, setsFcmTokenUpdatedAt := true,
         succeeded := true }] := by
  have h :=
    claim7_invalid_token_cleanup
      { qrId := "qr1", userId := "B", title := "t", body := "b" }
      { qrDoc := some { userId := " A " }, users := [("A", { fcmToken := "tok" })],
        sendOutcome := SendOutcome.tokenNotRegistered }
      { cleanedMetadata := [("userId", "A")]
        resolvedUserId := "A"
        resolvedVehicleId := ""
        resolvedFcmToken := "tok"
        dataPayload := [("qrId", "qr1"), ("userId", "A"), ("source", "avahanaa-web")]
        rlState :=
          { originDocs := [("anonymous", { count := 1, windowStart := 0, updatedAt := 0, scope := "origin" })]
            qrDoc := some { count := 1, windowStart := 0, updatedAt := 0, scope := "qr" } } }
      rfl (by decide) rfl
  exact ⟨h.1, h.2.1⟩

/-! ## Claim C9: audit logging only after an acknowledged send -/

/-- C9: an audit record is appended only when the send was attempted and
acknowledged and the append itself succeeded (so any failure during
validation, resolution, rate limiting or the send leaves the audit log
untouched); and when the append fails after a successful send, the caller
receives an `internal` error even though the push was delivered. -/
theorem claim9_audit_after_send
    (inp : NotifyInput) (env : Env) (eff : Effects) (r : Except HttpsError OkResp)
    (h : notifyOwner inp env = (eff, r)) :
    (eff.auditRecords ≠ [] →
      env.sendOutcome = SendOutcome.success ∧ env.auditAddFails = none ∧
      eff.sendAttempts ≠ [] ∧ ∃ okr, r = Except.ok okr) ∧
    (∀ e, r = Except.error e → eff.auditRecords = []) ∧
    (∀ m, env.sendOutcome = SendOutcome.success → env.auditAddFails = some m →
      eff.sendAttempts ≠ [] →
      r = Except.error { kind := ErrKind.internal, message := jsOr m "Failed to deliver notification." } ∧
      eff.auditRecords = []) := by
  cases hv : validate inp with
  | some e0 =>
    rw [notifyOwner_of_validate_error hv] at h
    injection h with he hr
    subst he; subst hr
    refine ⟨fun hc => absurd rfl hc, fun _ _ => rfl, fun m _ _ hc => absurd rfl hc⟩
  | none =>
    cases hp : preSend inp env with
    | error e0 =>
      rw [notifyOwner_of_preSend_error hv hp] at h
      injection h with he hr
      subst he; subst hr
      refine ⟨fun hc => absurd rfl hc, fun _ _ => rfl, fun m _ _ hc => absurd rfl hc⟩
    | ok res =>
      cases hs : env.sendOutcome with
      | tokenNotRegistered =>
        rw [notifyOwner_of_tokenNotRegistered hv hp hs] at h
        injection h with he hr
        subst he; subst hr
        refine ⟨fun hc => absurd rfl hc, fun _ _ => rfl, fun m hs' _ _ => ?_⟩
        exact SendOutcome.noConfusion hs'
      | failed m0 =>
        rw [notifyOwner_of_send_failed hv hp hs] at h
        injection h with he hr
        subst he; subst hr
        refine ⟨fun hc => absurd rfl hc, fun _ _ => rfl, fun m hs' _ _ => ?_⟩
        exact SendOutcome.noConfusion hs'
      | success =>
        cases ha : env.auditAddFails with
        | some m0 =>
          rw [notifyOwner_of_audit_failed hv hp hs ha] at h
          injection h with he hr
          subst he; subst hr
          refine ⟨fun hc => absurd rfl hc, fun _ _ => rfl, fun m _ ha' _ => ?_⟩
          obtain rfl : m0 = m := Option.some.inj ha'
          exact ⟨rfl, rfl⟩
        | none =>
          rw [notifyOwner_of_success hv hp hs ha] at h
          injection h with he hr
          subst he; subst hr
          refine ⟨fun _ => ⟨rfl, rfl, by simp, _, rfl⟩, fun e he => ?_, fun m _ ha' _ => ?_⟩
          · exact Except.noConfusion he
          · exact Option.noConfusion ha'

/-- Witness for C9: a concrete run in which the send succeeds and the audit
append fails with message "boom"; the caller receives `internal: boom` and no
record is appended. -/
theorem claim9_witness :
    (notifyOwner { qrId := "qr1", userId := "B", title := "t", body := "b" }
        { qrDoc := some { userId := " A " }, users := [("A", { fcmToken := "tok" })],
          auditAddFails := some "boom" }).2 =
      Except.error { kind := ErrKind.internal, message := jsOr "boom" "Failed to deliver notification." } ∧
    (notifyOwner { qrId := "qr1", userId := "B", title := "t", body := "b" }
        { qrDoc := some { userId := " A " }, users := [("A", { fcmToken := "tok" })],
          auditAddFails := some "boom" }).1.auditRecords = [] := by
  have h :=
    claim9_audit_after_send
      { qrId := "qr1", userId := "B", title := "t", body := "b" }
      { qrDoc := some { userId := " A " }, users := [("A", { fcmToken := "tok" })],
        auditAddFails := some "boom" }
      (notifyOwner { qrId := "qr1", userId := "B", title := "t", body := "b" }
        { qrDoc := some { userId := " A " }, users := [("A", { fcmToken := "tok" })],
          auditAddFails := some "boom" }).1
      (notifyOwner { qrId := "qr1", userId := "B", title := "t", body := "b" }
        { qrDoc := some { userId := " A " }, users := [("A", { fcmToken := "tok" })],
          auditAddFails := some "boom" }).2
      rfl
  exact h.2.2 "boom" rfl rfl (by decide)

/-! ## Claim C10: the push data payload -/

theorem nodupKeys_buildCleanedMeta {cm : List (String × String)} (ru rv : String)
    (hnd : nodupKeys cm) : nodupKeys (buildCleanedMeta cm ru rv) := by
  unfold buildCleanedMeta
  by_cases hrv : rv.isEmpty = true
  · rw [if_pos hrv]
    exact nodupKeys_objSet _ _ hnd
  · rw [Bool.not_eq_true] at hrv
    rw [hrv]
    exact nodupKeys_objSet _ _ (nodupKeys_objSet _ _ hnd)

theorem objGet_buildCleanedMeta_userId (cm : List (String × String)) (ru rv : String) :
    objGet (buildCleanedMeta cm ru rv) "userId" = some ru := by
  unfold buildCleanedMeta
  by_cases hrv : rv.isEmpty = true
  · rw [if_pos hrv]
    exact objGet_objSet_self _ _ _
  · rw [Bool.not_eq_true] at hrv
    rw [hrv]
    have h : objGet (objSet (objSet cm "userId" ru) "vehicleId" rv) "userId" = some ru := by
      rw [objGet_objSet_ne _ _ (by decide : ("userId" : String) ≠ "vehicleId")]
      exact objGet_objSet_self _ _ _
    exact h

theorem objGet_buildCleanedMeta_vehicleId_of_empty (cm : List (String × String))
    (ru : String) {rv : String} (hrv : rv = "") :
    objGet (buildCleanedMeta cm ru rv) "vehicleId" = objGet cm "vehicleId" := by
  subst hrv
  unfold buildCleanedMeta
  exact objGet_objSet_ne _ _ (by decide : ("vehicleId" : String) ≠ "userId")

theorem objGet_buildCleanedMeta_vehicleId_of_nonempty (cm : List (String × String))
    (ru : String) {rv : String} (hrv : rv ≠ "") :
    objGet (buildCleanedMeta cm ru rv) "vehicleId" = some rv := by
  have hrvB : rv.isEmpty = false := by
    rw [← Bool.not_eq_true]
    intro hc
    exact hrv (String.isEmpty_iff _ |>.mp hc)
  unfold buildCleanedMeta
  rw [hrvB]
  exact objGet_objSet_self _ _ _

theorem objGet_buildCleanedMeta_other (cm : List (String × String)) (ru rv : String)
    {k : String} (hk1 : k ≠ "userId") (hk2 : k ≠ "vehicleId") :
    objGet (buildCleanedMeta cm ru rv) k = objGet cm k := by
  unfold buildCleanedMeta
  by_cases hrv : rv.isEmpty = true
  · rw [if_pos hrv]
    exact objGet_objSet_ne _ _ hk1
  · rw [Bool.not_eq_true] at hrv
    rw [hrv]
    have h : objGet (objSet (objSet cm "userId" ru) "vehicleId" rv) k = objGet cm k := by
      rw [objGet_objSet_ne _ _ hk2]
      exact objGet_objSet_ne _ _ hk1
    exact h

/-- C10 counterexample: with a code record whose `vehicleId` is the
whitespace-only string `" "` and caller metadata `{vehicleId: "X"}`, the
resolved vehicle id is empty, yet the delivered push payload carries
`vehicleId = "X"` — the payload entry does not carry the resolved vehicle
id. -/
theorem claim10_counterexample :
    (notifyOwner { qrId := "qr1", title := "t", body := "b",
                   metadata := [("vehicleId", JsValue.str "X")] }
        { qrDoc := some { userId := "A", vehicleId := " " },
          users := [("A", { fcmToken := "tok" })] }).2 =
      Except.ok { userId := "A", vehicleId := "" } ∧
    ((notifyOwner { qrId := "qr1", title := "t", body := "b",
                    metadata := [("vehicleId", JsValue.str "X")] }
        { qrDoc := some { userId := "A", vehicleId := " " },
          users := [("A", { fcmToken := "tok" })] }).1.sendAttempts.map
      (fun msg => objGet msg.data "vehicleId")) = [some "X"] ∧
    some "X" ≠ (some "" : Option String) :=
  ⟨by decide, by decide, by decide⟩

/-- C10 as amended: in the push data payload built from the cleaned metadata
`cm` (distinct keys), resolved owner `ru` and resolved vehicle id `rv`:
metadata entries are spread after the built-in fields, so a metadata `qrId`
or `source` entry overrides the built-in code id and `"avahanaa-web"`; the
`userId` entry always carries the resolved owner because the cleaned
metadata is overwritten with it first; the `vehicleId` entry carries the
resolved vehicle id whenever that is non-empty, but when it is empty a
caller metadata `vehicleId` entry survives into the payload unchanged. -/
theorem claim10_amended_payload_overrides
    (q ru rv : String) (cm : List (String × String)) (hnd : nodupKeys cm) :
    objGet (buildDataPayload q ru rv (buildCleanedMeta cm ru rv)) "userId" = some ru ∧
    (rv ≠ "" →
      objGet (buildDataPayload q ru rv (buildCleanedMeta cm ru rv)) "vehicleId" = some rv) ∧
    (rv = "" →
      objGet (buildDataPayload q ru rv (buildCleanedMeta cm ru rv)) "vehicleId" =
        objGet cm "vehicleId") ∧
    (∀ v, objGet cm "qrId" = some v →
      objGet (buildDataPayload q ru rv (buildCleanedMeta cm ru rv)) "qrId" = some v) ∧
    (objGet cm "qrId" = none →
      objGet (buildDataPayload q ru rv (buildCleanedMeta cm ru rv)) "qrId" = some q) ∧
    (∀ v, objGet cm "source" = some v →
      objGet (buildDataPayload q ru rv (buildCleanedMeta cm ru rv)) "source" = some v) ∧
    (objGet cm "source" = none →
      objGet (buildDataPayload q ru rv (buildCleanedMeta cm ru rv)) "source" =
        some "avahanaa-web") := by
  have hnd2 : nodupKeys (buildCleanedMeta cm ru rv) := nodupKeys_buildCleanedMeta ru rv hnd
  have hbd : buildDataPayload q ru rv (buildCleanedMeta cm ru rv) =
      (buildCleanedMeta cm ru rv).foldl (fun acc kv => objSet acc kv.1 kv.2)
        (objSet
          (if rv.isEmpty then objSet (objSet ([] : List (String × String)) "qrId" q) "userId" ru
           else objSet (objSet (objSet ([] : List (String × String)) "qrId" q) "userId" ru)
             "vehicleId" rv)
          "source" "avahanaa-web") := rfl
  have hfold := fun k =>
    objGet_foldl_objSet (buildCleanedMeta cm ru rv)
      (objSet
        (if rv.isEmpty then objSet (objSet ([] : List (String × String)) "qrId" q) "userId" ru
         else objSet (objSet (objSet ([] : List (String × String)) "qrId" q) "userId" ru)
           "vehicleId" rv)
        "source" "avahanaa-web") k hnd2
  refine ⟨?_, ?_, ?_, ?_, ?_, ?_, ?_⟩
  · rw [hbd, hfold, objGet_buildCleanedMeta_userId]
  · intro hrv
    rw [hbd, hfold, objGet_buildCleanedMeta_vehicleId_of_nonempty cm ru hrv]
  · intro hrv
    rw [hbd, hfold, objGet_buildCleanedMeta_vehicleId_of_empty cm ru hrv]
    cases hg : objGet cm "vehicleId" with
    | some v => rfl
    | none =>
      subst hrv
      have h : objGet (objSet (objSet (objSet ([] : List (String × String)) "qrId" q)
          "userId" ru) "source" "avahanaa-web") "vehicleId" = none := by
        rw [objGet_objSet_ne _ _ (by decide : ("vehicleId" : String) ≠ "source"),
            objGet_objSet_ne _ _ (by decide : ("vehicleId" : String) ≠ "userId"),
            objGet_objSet_ne _ _ (by decide : ("vehicleId" : String) ≠ "qrId")]
        rfl
      exact h
  · intro v hv
    rw [hbd, hfold, objGet_buildCleanedMeta_other cm ru rv (by decide) (by decide), hv]
  · intro hv
    rw [hbd, hfold, objGet_buildCleanedMeta_other cm ru rv (by decide) (by decide), hv]
    rw [objGet_objSet_ne _ _ (by decide : ("qrId" : String) ≠ "source")]
    by_cases hrv : rv.isEmpty = true
    · rw [if_pos hrv]
      rw [objGet_objSet_ne _ _ (by decide : ("qrId" : String) ≠ "userId")]
      exact objGet_objSet_self _ _ _
    · rw [Bool.not_eq_true] at hrv
      rw [hrv]
      have h : objGet (objSet (objSet (objSet ([] : List (String × String)) "qrId" q)
          "userId" ru) "vehicleId" rv) "qrId" = some q := by
        rw [objGet_objSet_ne _ _ (by decide : ("qrId" : String) ≠ "vehicleId"),
            objGet_objSet_ne _ _ (by decide : ("qrId" : String) ≠ "userId")]
        exact objGet_objSet_self _ _ _
      exact h
  · intro v hv
    rw [hbd, hfold, objGet_buildCleanedMeta_other cm ru rv (by decide) (by decide), hv]
  · intro hv
    rw [hbd, hfold, objGet_buildCleanedMeta_other cm ru rv (by decide) (by decide), hv]
    exact objGet_objSet_self _ _ _

/-- Witness for the amended C10 on a concrete cleaned-metadata map that
overrides `qrId` and `source` and supplies its own `vehicleId` while the
resolved vehicle id is empty. -/
theorem claim10_witness :
    objGet (buildDataPayload "qr1" "A" ""
        (buildCleanedMeta [("qrId", "override"), ("source", "spoof"), ("vehicleId", "X")] "A" ""))
      "userId" = some "A" ∧
    (("" : String) = "" →
      objGet (buildDataPayload "qr1" "A" ""
          (buildCleanedMeta [("qrId", "override"), ("source", "spoof"), ("vehicleId", "X")] "A" ""))
        "vehicleId" =
        objGet [("qrId", "override"), ("source", "spoof"), ("vehicleId", "X")] "vehicleId") ∧
    (∀ v, objGet [("qrId", "override"), ("source", "spoof"), ("vehicleId", "X")] "qrId" = some v →
      objGet (buildDataPayload "qr1" "A" ""
          (buildCleanedMeta [("qrId", "override"), ("source", "spoof"), ("vehicleId", "X")] "A" ""))
        "qrId" = some v) := by
  have h :=
    claim10_amended_payload_overrides "qr1" "A" ""
      [("qrId", "override"), ("source", "spoof"), ("vehicleId", "X")]
      (by unfold nodupKeys; decide)
  exact ⟨h.1, h.2.2.1, h.2.2.2.1⟩

end Avahanaa
